import Mathlib

/-!
Verification of the DOCX processing service core (`src/main.py`).

Shallow embedding of the DOCX-processing service: the byte-level UTF-8 codec
used by Python's `str.encode('utf-8')` / `bytes.decode('utf-8')`, an algebraic
model of the ZIP archive layer (`zipfile`), the `ElementTree`-style XML tree
walking used by the highlight extractor, and the three HTTP endpoint handlers
as pure functions of filename and content.
-/

namespace DocxApi

/-! ## UTF-8 codec

`zipfile.ZipFile.writestr` encodes a `str` payload as UTF-8, and
`docx_to_xml` decodes `word/document.xml` with `bytes.decode('utf-8')`.
We model byte strings as `List Nat` (each entry < 256) and implement the
standard UTF-8 codec on Unicode scalar values. -/

/-- UTF-8 encoding of a single Unicode scalar value (a `Char`), as bytes. -/
def utf8EncodeChar (c : Char) : List Nat :=
  let v := c.toNat
  if v < 0x80 then [v]
  else if v < 0x800 then [0xC0 + v / 64, 0x80 + v % 64]
  else if v < 0x10000 then [0xE0 + v / 4096, 0x80 + v / 64 % 64, 0x80 + v % 64]
  else [0xF0 + v / 262144, 0x80 + v / 4096 % 64, 0x80 + v / 64 % 64, 0x80 + v % 64]

/-- UTF-8 encoding of a string, as bytes (models Python `s.encode('utf-8')`). -/
def utf8Encode (s : String) : List Nat :=
  s.data.flatMap utf8EncodeChar

/-- Is this byte a UTF-8 continuation byte (`10xxxxxx`)? -/
def isCont (b : Nat) : Bool :=
  0x80 ≤ b && b < 0xC0

/-- Decode one UTF-8 scalar value from a lead byte `b0` and the remaining
bytes: returns the decoded character and the bytes left over.  Rejects stray
continuation bytes, overlong encodings, surrogate code points and values
above `0x10FFFF`, as Python's strict `bytes.decode('utf-8')` does. -/
def decodeOne (b0 : Nat) (rest : List Nat) : Option (Char × List Nat) :=
  if b0 < 0x80 then some (Char.ofNat b0, rest)
  else if b0 < 0xC2 then none
  else if b0 < 0xE0 then
    match rest with
    | b1 :: rest2 =>
      if isCont b1 then some (Char.ofNat ((b0 - 0xC0) * 64 + (b1 - 0x80)), rest2)
      else none
    | [] => none
  else if b0 < 0xF0 then
    match rest with
    | b1 :: b2 :: rest3 =>
      if isCont b1 && isCont b2 then
        if (b0 - 0xE0) * 4096 + (b1 - 0x80) * 64 + (b2 - 0x80) < 0x800 ||
            (0xD800 ≤ (b0 - 0xE0) * 4096 + (b1 - 0x80) * 64 + (b2 - 0x80) &&
              (b0 - 0xE0) * 4096 + (b1 - 0x80) * 64 + (b2 - 0x80) < 0xE000) then none
        else some (Char.ofNat ((b0 - 0xE0) * 4096 + (b1 - 0x80) * 64 + (b2 - 0x80)), rest3)
      else none
    | _ => none
  else if b0 < 0xF5 then
    match rest with
    | b1 :: b2 :: b3 :: rest4 =>
      if isCont b1 && isCont b2 && isCont b3 then
        if (b0 - 0xF0) * 262144 + (b1 - 0x80) * 4096 + (b2 - 0x80) * 64 + (b3 - 0x80) < 0x10000 ||
            0x110000 ≤ (b0 - 0xF0) * 262144 + (b1 - 0x80) * 4096 + (b2 - 0x80) * 64 + (b3 - 0x80)
          then none
        else some
          (Char.ofNat ((b0 - 0xF0) * 262144 + (b1 - 0x80) * 4096 + (b2 - 0x80) * 64 + (b3 - 0x80)),
            rest4)
      else none
    | _ => none
  else none

/-- Fuel-driven UTF-8 decode loop (structural in the fuel, so that the
kernel can evaluate it on concrete bytes).  Each step consumes at least the
lead byte, so fuel equal to the byte count never runs out. -/
def utf8DecodeLoop : Nat → List Nat → Option (List Char)
  | _, [] => some []
  | 0, _ :: _ => none
  | fuel + 1, b0 :: rest =>
    match decodeOne b0 rest with
    | none => none
    | some (c, rest') => (utf8DecodeLoop fuel rest').map (c :: ·)

/-- UTF-8 decoding of a byte list into characters; `none` on any violation
(modelling `UnicodeDecodeError`). -/
def utf8DecodeChars (l : List Nat) : Option (List Char) :=
  utf8DecodeLoop l.length l

/-- UTF-8 decoding of bytes to a string (models Python `b.decode('utf-8')`;
`none` models `UnicodeDecodeError`). -/
def utf8Decode (l : List Nat) : Option String :=
  (utf8DecodeChars l).map String.mk

/-! ## Python string primitives

The handful of `str` methods the source relies on, modelled directly on the
character list so that the kernel can evaluate them on concrete inputs. -/

/-- The characters Python's no-argument `str.strip()` removes: exactly the
code points for which `str.isspace()` holds (CPython's `Py_UNICODE_ISSPACE`)
— `U+0009`–`U+000D`, `U+001C`–`U+001F`, space, `U+0085` (NEL), `U+00A0`
(no-break space), `U+1680`, `U+2000`–`U+200A`, `U+2028`, `U+2029`, `U+202F`,
`U+205F` and `U+3000`. -/
def isPyWhitespace (c : Char) : Bool :=
  let v := c.toNat
  (0x09 ≤ v && v ≤ 0x0D) || (0x1C ≤ v && v ≤ 0x1F) || v = 0x20 ||
    v = 0x85 || v = 0xA0 || v = 0x1680 || (0x2000 ≤ v && v ≤ 0x200A) ||
    v = 0x2028 || v = 0x2029 || v = 0x202F || v = 0x205F || v = 0x3000

/-- Models Python `s.strip()`: remove leading and trailing whitespace. -/
def pyStrip (s : String) : String :=
  ⟨((s.data.dropWhile isPyWhitespace).reverse.dropWhile isPyWhitespace).reverse⟩

/-- Models Python `s.lower()` on the ASCII range (filenames here). -/
def pyLowerChar (c : Char) : Char :=
  if 'A' ≤ c && c ≤ 'Z' then Char.ofNat (c.toNat + 32) else c

/-- Models Python `s.lower()`. -/
def pyLower (s : String) : String :=
  ⟨s.data.map pyLowerChar⟩

/-- Models Python `s.endswith(suffix)`. -/
def pyEndsWith (s suffix : String) : Bool :=
  suffix.data.isSuffixOf s.data

/-! ## Archive model

The `zipfile` library is an external collaborator; a byte buffer either
parses as a ZIP archive (giving the named parts it holds, in the order they
were written) or it does not (`zipfile.BadZipFile`).  A zero-length buffer is
never a valid ZIP archive (the format requires at least an end-of-central-
directory record), so the empty buffer is `nonArchive []`. -/

/-- A named archive part: path and raw bytes. -/
abbrev Part := String × List Nat

/-- A byte buffer handed to the DOCX endpoints, as `zipfile` interprets it. -/
inductive DocxBytes where
  | archive (parts : List Part)
  | nonArchive (raw : List Nat)
deriving DecidableEq, Repr

/-- Models `len(content) == 0` on the underlying buffer.  A valid archive buffer is
never zero-length. -/
def DocxBytes.isEmpty : DocxBytes → Bool
  | .nonArchive raw => raw.isEmpty
  | .archive _ => false

/-- Models `ZipFile.read(path)`: exact-path lookup among the archive's parts
(`KeyError`, i.e. `none`, when absent). -/
def zipRead (parts : List Part) (path : String) : Option (List Nat) :=
  parts.lookup path

/-! ## Error taxonomy

Each constructor mirrors one `HTTPException` raised in `src/main.py`; the
`status`/detail of each is recorded by `Err.status`. -/

/-- The typed errors the service raises, one per `HTTPException` site. -/
inductive Err where
  /-- Raised as `zipfile.BadZipFile` → 400 "Invalid DOCX file format". -/
  | corruptArchive
  /-- Raised as `KeyError` → 400 "Invalid DOCX structure - missing document.xml". -/
  | partNotFound
  /-- Raised as `ET.ParseError` → 400 "Invalid XML format: ..." with the parser's
  line/column diagnostic. -/
  | malformedXml (line : Nat) (col : Nat)
  /-- 400 "Empty file uploaded". -/
  | emptyInput
  /-- 400 "File must be a DOCX document" / "File must be an XML document". -/
  | wrongFileType
  /-- Raised as `UnicodeDecodeError` in `convert_docx` → 400 "Invalid XML file
  encoding". -/
  | invalidXmlEncoding
  /-- The catch-all `except Exception` handlers → 500 `f"Error ...: {e}"`;
  the payload names the exception that was swallowed. -/
  | processingError (source : String)
deriving DecidableEq, Repr

/-- The HTTP status code each error is surfaced with. -/
def Err.status : Err → Nat
  | .processingError _ => 500
  | _ => 400

/-- Whether an error is the generic catch-all (`except Exception` → 500)
rather than one of the specifically-typed 400 failures. -/
def Err.isGenericCatchAll : Err → Bool
  | .processingError _ => true
  | _ => false

/-! ## Conversion: `DocxProcessor.docx_to_xml` / `DocxProcessor.xml_to_docx` -/

/-- The fixed, well-known path of the document part. -/
def wordDocumentPath : String := "word/document.xml"

/-- Models `DocxProcessor.docx_to_xml`: open the buffer as a ZIP, read
`word/document.xml`, decode as UTF-8.  `BadZipFile` → `corruptArchive`;
`KeyError` → `partNotFound`; a `UnicodeDecodeError` is not matched by either
specific handler and falls into the catch-all `except Exception` → 500. -/
def docx_to_xml : DocxBytes → Except Err String
  | .nonArchive _ => .error .corruptArchive
  | .archive parts =>
    match zipRead parts wordDocumentPath with
    | none => .error .partNotFound
    | some bs =>
      match utf8Decode bs with
      | none => .error (.processingError "UnicodeDecodeError")
      | some s => .ok s

/-- Verbatim content of the `[Content_Types].xml` part written by
`xml_to_docx` (source lines 115–121). -/
def contentTypesXml : String :=
  "<?xml version=\"1.0\" encoding=\"UTF-8\" standalone=\"yes\"?>\n" ++
  "<Types xmlns=\"http://schemas.openxmlformats.org/package/2006/content-types\">\n" ++
  "    <Default Extension=\"rels\" ContentType=\"application/vnd.openxmlformats-package.relationships+xml\"/>\n" ++
  "    <Default Extension=\"xml\" ContentType=\"application/xml\"/>\n" ++
  "    <Override PartName=\"/word/document.xml\" ContentType=\"application/vnd.openxmlformats-officedocument.wordprocessingml.document.main+xml\"/>\n" ++
  "    <Override PartName=\"/word/styles.xml\" ContentType=\"application/vnd.openxmlformats-officedocument.wordprocessingml.styles+xml\"/>\n" ++
  "</Types>"

/-- Verbatim content of the package-level `_rels/.rels` part (lines 125–128). -/
def mainRelsXml : String :=
  "<?xml version=\"1.0\" encoding=\"UTF-8\" standalone=\"yes\"?>\n" ++
  "<Relationships xmlns=\"http://schemas.openxmlformats.org/package/2006/relationships\">\n" ++
  "    <Relationship Id=\"rId1\" Type=\"http://schemas.openxmlformats.org/officeDocument/2006/relationships/officeDocument\" Target=\"word/document.xml\"/>\n" ++
  "</Relationships>"

/-- Verbatim content of the document-level `word/_rels/document.xml.rels`
part (lines 132–135). -/
def docRelsXml : String :=
  "<?xml version=\"1.0\" encoding=\"UTF-8\" standalone=\"yes\"?>\n" ++
  "<Relationships xmlns=\"http://schemas.openxmlformats.org/package/2006/relationships\">\n" ++
  "    <Relationship Id=\"rId1\" Type=\"http://schemas.openxmlformats.org/officeDocument/2006/relationships/styles\" Target=\"styles.xml\"/>\n" ++
  "</Relationships>"

/-- Verbatim content of the minimal `word/styles.xml` part (lines 139–151). -/
def stylesXml : String :=
  "<?xml version=\"1.0\" encoding=\"UTF-8\" standalone=\"yes\"?>\n" ++
  "<w:styles xmlns:w=\"http://schemas.openxmlformats.org/wordprocessingml/2006/main\">\n" ++
  "    <w:docDefaults>\n" ++
  "        <w:rPrDefault>\n" ++
  "            <w:rPr>\n" ++
  "                <w:rFonts w:ascii=\"Calibri\" w:eastAsia=\"Calibri\" w:hAnsi=\"Calibri\" w:cs=\"Calibri\"/>\n" ++
  "                <w:sz w:val=\"22\"/>\n" ++
  "                <w:szCs w:val=\"22\"/>\n" ++
  "                <w:lang w:val=\"en-US\" w:eastAsia=\"en-US\" w:bidi=\"ar-SA\"/>\n" ++
  "            </w:rPr>\n" ++
  "        </w:rPrDefault>\n" ++
  "    </w:docDefaults>\n" ++
  "</w:styles>"

/-- Models `DocxProcessor.xml_to_docx`: assemble a minimal package around the raw
XML text, in the order the source calls `writestr` (each `writestr` of a
`str` stores its UTF-8 encoding).  The construction is total: the
`ET.ParseError` handler in the source is dead code, as nothing in the `try`
block parses XML. -/
def xml_to_docx (xml_content : String) : DocxBytes :=
  .archive
    [ ("[Content_Types].xml", utf8Encode contentTypesXml)
    , ("_rels/.rels", utf8Encode mainRelsXml)
    , ("word/_rels/document.xml.rels", utf8Encode docRelsXml)
    , ("word/styles.xml", utf8Encode stylesXml)
    , (wordDocumentPath, utf8Encode xml_content)
    ]

/-! ## XML tree model

An `xml.etree.ElementTree` element: a namespace-qualified tag, attributes
keyed by namespace-qualified names, the element's text (Python `elem.text`,
`None` or a string) and its children in document order.  `.tail` text is
never read by the source, so it is not modelled. -/

/-- A namespace-qualified XML name, as ElementTree's expanded
`\x7buri\x7dlocal` form. -/
structure QName where
  uri : String
  name : String
deriving DecidableEq, Repr

/-- An XML element node. -/
inductive XmlNode where
  | elem (tag : QName) (attrs : List (QName × String)) (text : Option String)
      (children : List XmlNode)

/-- The element's tag. -/
def XmlNode.tag : XmlNode → QName
  | .elem t _ _ _ => t

/-- The element's attribute list. -/
def XmlNode.attrs : XmlNode → List (QName × String)
  | .elem _ a _ _ => a

/-- The element's `.text` (text before the first child; `None` → `none`). -/
def XmlNode.text : XmlNode → Option String
  | .elem _ _ x _ => x

/-- The element's children, in document order. -/
def XmlNode.children : XmlNode → List XmlNode
  | .elem _ _ _ ch => ch

/-- Models `elem.get(key, default)`: attribute lookup with a default. -/
def XmlNode.getAttrD (n : XmlNode) (key : QName) (dflt : String) : String :=
  match n.attrs.lookup key with
  | some v => v
  | none => dflt

mutual

/-- A node followed by all of its descendants, preorder (document order). -/
def descendantsSelf : XmlNode → List XmlNode
  | .elem t a x ch => .elem t a x ch :: descendantsList ch

/-- All nodes of a forest in preorder. -/
def descendantsList : List XmlNode → List XmlNode
  | [] => []
  | n :: ns => descendantsSelf n ++ descendantsList ns

end

/-- The strict descendants of a node, preorder. -/
def XmlNode.descendants (n : XmlNode) : List XmlNode :=
  descendantsList n.children

/-- Models `elem.findall('.//' + tag, NAMESPACES)`: every strict descendant
with the given qualified tag, in document order. -/
def findallDesc (n : XmlNode) (q : QName) : List XmlNode :=
  n.descendants.filter (fun d => d.tag == q)

/-- Models `elem.find('.//' + tag, NAMESPACES)`: the first such descendant. -/
def findDesc (n : XmlNode) (q : QName) : Option XmlNode :=
  (findallDesc n q).head?

/-! ## Namespace constants (`NAMESPACES` in the source) -/

/-- The `w` prefix URI (wordprocessingml main namespace). -/
def wNs : String := "http://schemas.openxmlformats.org/wordprocessingml/2006/main"

/-- Qualified `w:p` (paragraph). -/
def qP : QName := ⟨wNs, "p"⟩

/-- Qualified `w:r` (run). -/
def qR : QName := ⟨wNs, "r"⟩

/-- Qualified `w:t` (text node). -/
def qT : QName := ⟨wNs, "t"⟩

/-- Qualified `w:highlight` (highlight marker). -/
def qHighlight : QName := ⟨wNs, "highlight"⟩

/-- The fully-qualified `val` attribute key used at source line 52. -/
def qVal : QName := ⟨wNs, "val"⟩

/-! ## Highlight extraction (`DocxProcessor`) -/

/-- Models `DocxProcessor.extract_text_from_run`: concatenate the `.text` of
every `w:t` descendant of the run; a `None` or empty text contributes
nothing (the source guards with `if text_elem.text:`). -/
def extract_text_from_run (run_elem : XmlNode) : String :=
  String.join ((findallDesc run_elem qT).filterMap fun text_elem =>
    match text_elem.text with
    | some s => if s = "" then none else some s
    | none => none)

/-- Models `DocxProcessor.is_highlighted`: a run is highlighted iff a
`w:highlight` descendant exists. -/
def is_highlighted (run_elem : XmlNode) : Bool :=
  (findDesc run_elem qHighlight).isSome

/-- Models `DocxProcessor.get_highlight_color`: the `val` attribute of the
first `w:highlight` descendant, defaulting to `"yellow"` when the marker is
present without the attribute; `none` when there is no marker. -/
def get_highlight_color (run_elem : XmlNode) : Option String :=
  match findDesc run_elem qHighlight with
  | some highlight_elem => some (highlight_elem.getAttrD qVal "yellow")
  | none => none

/-- One extracted highlight record (one dict in the source's output list). -/
structure HighlightRecord where
  text : String
  highlight_color : Option String
  paragraph_index : Nat
  run_index : Nat
deriving DecidableEq, Repr

/-- The body of the innermost loop of `extract_highlighted_text` (source
lines 70–79): emit a record iff the run is highlighted and its stripped
text is non-empty. -/
def emitRecord (para_idx run_idx : Nat) (run : XmlNode) : Option HighlightRecord :=
  if is_highlighted run then
    let text := extract_text_from_run run
    if pyStrip text ≠ "" then
      some ⟨pyStrip text, get_highlight_color run, para_idx, run_idx⟩
    else none
  else none

/-- The records produced for one paragraph: enumerate
`paragraph.findall('.//w:r')` and run the inner loop on each run. -/
def paraRecords (para_idx : Nat) (paragraph : XmlNode) : List HighlightRecord :=
  (findallDesc paragraph qR).enum.filterMap fun ir => emitRecord para_idx ir.1 ir.2

/-- The body of `DocxProcessor.extract_highlighted_text` after the
`ET.fromstring` parse: enumerate `root.findall('.//w:p')` and collect each
paragraph's records in order. -/
def extractFromTree (root : XmlNode) : List HighlightRecord :=
  (findallDesc root qP).enum.flatMap fun ip => paraRecords ip.1 ip.2

/-- The run a record's indices refer to: entry `ri` of the runs found in
entry `pi` of the paragraphs found under the root. -/
def runAt (root : XmlNode) (pi ri : Nat) : Option XmlNode :=
  match (findallDesc root qP)[pi]? with
  | none => none
  | some p => (findallDesc p qR)[ri]?

/-- Models `DocxProcessor.extract_highlighted_text`.  `ET.fromstring` is an
external parser, passed explicitly: it yields the parsed tree of the text,
or the `(line, column)` position of a well-formedness violation
(`ET.ParseError`), which the source converts to the 400 `MalformedXml`
error. -/
def extract_highlighted_text (parse : String → Except (Nat × Nat) XmlNode)
    (document_xml : String) : Except Err (List HighlightRecord) :=
  match parse document_xml with
  | .error (line, col) => .error (.malformedXml line col)
  | .ok root => .ok (extractFromTree root)

/-! ## Endpoint handlers

Each is the corresponding FastAPI handler as a pure function of the upload's
filename and content; the `processed_at` timestamp and HTTP response envelope
carry no logic and are omitted. -/

/-- Models Python `filename.rsplit('.', 1)[0]`. -/
def baseNameOf (filename : String) : String :=
  match (filename.splitOn ".").reverse with
  | [] => filename
  | [_] => filename
  | _ :: front => String.intercalate "." front.reverse

/-- The JSON envelope returned by `submit_docx` on success. -/
structure SubmitResponse where
  success : Bool
  filename : String
  highlighted_text_count : Nat
  highlighted_texts : List HighlightRecord
deriving DecidableEq, Repr

/-- Models the `/submit-docx` handler `submit_docx`: extension check, empty
check, then `docx_to_xml` followed by `extract_highlighted_text`. -/
def submit_docx (parse : String → Except (Nat × Nat) XmlNode)
    (filename : String) (content : DocxBytes) : Except Err SubmitResponse :=
  if ¬ (pyEndsWith (pyLower filename) ".docx") then .error .wrongFileType
  else if content.isEmpty then .error .emptyInput
  else
    match docx_to_xml content with
    | .error e => .error e
    | .ok document_xml =>
      match extract_highlighted_text parse document_xml with
      | .error e => .error e
      | .ok highlighted_texts =>
        .ok ⟨true, filename, highlighted_texts.length, highlighted_texts⟩

/-- Models the `/convert-xml` handler `convert_xml`: extension check, empty
check, then `docx_to_xml`; returns the XML text and the suggested download
filename. -/
def convert_xml (filename : String) (content : DocxBytes) :
    Except Err (String × String) :=
  if ¬ (pyEndsWith (pyLower filename) ".docx") then .error .wrongFileType
  else if content.isEmpty then .error .emptyInput
  else
    match docx_to_xml content with
    | .error e => .error e
    | .ok xml_content => .ok (xml_content, baseNameOf filename ++ ".xml")

/-- Models the `/convert-docx` handler `convert_docx`: extension check, empty
check, UTF-8 decode of the upload (a failure here is caught at line 281 and
surfaced as 400 "Invalid XML file encoding"), then `xml_to_docx`. -/
def convert_docx (filename : String) (content : List Nat) :
    Except Err (DocxBytes × String) :=
  if ¬ (pyEndsWith (pyLower filename) ".xml") then .error .wrongFileType
  else if content.length = 0 then .error .emptyInput
  else
    match utf8Decode content with
    | none => .error .invalidXmlEncoding
    | some xml_content =>
      .ok (xml_to_docx xml_content, baseNameOf filename ++ ".docx")

/-- The ordering the extractor's output satisfies: non-decreasing paragraph
index, and non-decreasing run index among equal paragraph indices. -/
def recLE (a b : HighlightRecord) : Prop :=
  a.paragraph_index < b.paragraph_index ∨
    (a.paragraph_index = b.paragraph_index ∧ a.run_index ≤ b.run_index)

/-! ## Concrete scenario trees -/

/-- Qualified `w:rPr` (run properties). -/
def qRPr : QName := ⟨wNs, "rPr"⟩

/-- Qualified `w:body`. -/
def qBody : QName := ⟨wNs, "body"⟩

/-- Qualified `w:document`. -/
def qDocument : QName := ⟨wNs, "document"⟩

/-- Scenario C2, paragraph 0, run 0: unhighlighted, text `"Hello"`. -/
def c2run0 : XmlNode := .elem qR [] none [.elem qT [] (some "Hello") []]

/-- Scenario C2, paragraph 0, run 1: highlighted green, text `"World"`. -/
def c2run1 : XmlNode :=
  .elem qR [] none
    [.elem qRPr [] none [.elem qHighlight [(qVal, "green")] none []],
     .elem qT [] (some "World") []]

/-- Scenario C2, paragraph 1, run 0: highlighted, whitespace-only text. -/
def c2run2 : XmlNode :=
  .elem qR [] none
    [.elem qRPr [] none [.elem qHighlight [] none []],
     .elem qT [] (some "   ") []]

/-- Scenario C2: the document tree with two paragraphs. -/
def c2doc : XmlNode :=
  .elem qDocument [] none
    [.elem qBody [] none
      [.elem qP [] none [c2run0, c2run1],
       .elem qP [] none [c2run2]]]

/-- The document XML text whose parse is `c2doc`. -/
def c2xmlText : String :=
  "<w:document xmlns:w=\"http://schemas.openxmlformats.org/wordprocessingml/2006/main\">" ++
  "<w:body><w:p><w:r><w:t>Hello</w:t></w:r>" ++
  "<w:r><w:rPr><w:highlight w:val=\"green\"/></w:rPr><w:t>World</w:t></w:r></w:p>" ++
  "<w:p><w:r><w:rPr><w:highlight/></w:rPr><w:t>   </w:t></w:r></w:p></w:body></w:document>"

/-- A run carrying a highlight marker with no `val` attribute, text `"Note"`. -/
def c3run : XmlNode :=
  .elem qR [] none
    [.elem qRPr [] none [.elem qHighlight [] none []],
     .elem qT [] (some "Note") []]

/-- A one-paragraph document whose only run is `c3run`. -/
def c3doc : XmlNode :=
  .elem qDocument [] none [.elem qBody [] none [.elem qP [] none [c3run]]]

/-- A highlighted run whose only text is a no-break space (U+00A0), which
Python's `str.strip()` removes although it is not ASCII whitespace. -/
def c4run : XmlNode :=
  .elem qR [] none
    [.elem qRPr [] none [.elem qHighlight [] none []],
     .elem qT [] (some "\u00A0") []]

/-- A two-paragraph document: paragraph 0 holds the green `"World"` run,
paragraph 1 holds only the no-break-space run `c4run`. -/
def c4doc : XmlNode :=
  .elem qDocument [] none
    [.elem qBody [] none
      [.elem qP [] none [c2run1], .elem qP [] none [c4run]]]

/-! ## Codec lemmas -/

theorem decodeOne_encodeChar (c : Char) (rest : List Nat) :
    utf8EncodeChar c ++ rest =
      (utf8EncodeChar c).head! :: ((utf8EncodeChar c).tail ++ rest) ∧
    decodeOne (utf8EncodeChar c).head! ((utf8EncodeChar c).tail ++ rest)
      = some (c, rest) := by
  have hvalid : c.toNat < 0xD800 ∨ (0xE000 ≤ c.toNat ∧ c.toNat < 0x110000) := c.valid
  by_cases ha : c.toNat < 0x80
  · simp only [utf8EncodeChar, if_pos ha]
    refine ⟨rfl, ?_⟩
    unfold decodeOne
    simp only [List.head!, List.tail, List.nil_append]
    rw [if_pos ha, Char.ofNat_toNat]
  · by_cases hb : c.toNat < 0x800
    · simp only [utf8EncodeChar, if_neg ha, if_pos hb]
      refine ⟨rfl, ?_⟩
      unfold decodeOne
      simp only [List.head!, List.tail, List.cons_append, List.nil_append]
      rw [if_neg (by omega), if_neg (by omega), if_pos (by omega)]
      rw [if_pos (by simp [isCont]; omega)]
      have hv : (0xC0 + c.toNat / 64 - 0xC0) * 64 + (0x80 + c.toNat % 64 - 0x80)
          = c.toNat := by omega
      rw [hv, Char.ofNat_toNat]
    · by_cases hc : c.toNat < 0x10000
      · simp only [utf8EncodeChar, if_neg ha, if_neg hb, if_pos hc]
        refine ⟨rfl, ?_⟩
        unfold decodeOne
        simp only [List.head!, List.tail, List.cons_append, List.nil_append]
        rw [if_neg (by omega), if_neg (by omega), if_neg (by omega), if_pos (by omega)]
        rw [if_pos (by simp [isCont]; omega)]
        rw [if_neg (by simp; omega)]
        have hv : (0xE0 + c.toNat / 4096 - 0xE0) * 4096 +
            (0x80 + c.toNat / 64 % 64 - 0x80) * 64 + (0x80 + c.toNat % 64 - 0x80)
            = c.toNat := by omega
        rw [hv, Char.ofNat_toNat]
      · simp only [utf8EncodeChar, if_neg ha, if_neg hb, if_neg hc]
        refine ⟨rfl, ?_⟩
        unfold decodeOne
        simp only [List.head!, List.tail, List.cons_append, List.nil_append]
        rw [if_neg (by omega), if_neg (by omega), if_neg (by omega), if_neg (by omega),
          if_pos (by omega)]
        rw [if_pos (by simp [isCont]; omega)]
        rw [if_neg (by simp; omega)]
        have hv : (0xF0 + c.toNat / 262144 - 0xF0) * 262144 +
            (0x80 + c.toNat / 4096 % 64 - 0x80) * 4096 +
            (0x80 + c.toNat / 64 % 64 - 0x80) * 64 + (0x80 + c.toNat % 64 - 0x80)
            = c.toNat := by omega
        rw [hv, Char.ofNat_toNat]

theorem utf8EncodeChar_length_pos (c : Char) : 0 < (utf8EncodeChar c).length := by
  simp only [utf8EncodeChar]
  split_ifs <;> simp

theorem utf8DecodeLoop_encode_list (cs : List Char) :
    ∀ fuel, (cs.flatMap utf8EncodeChar).length ≤ fuel →
      utf8DecodeLoop fuel (cs.flatMap utf8EncodeChar) = some cs := by
  induction cs with
  | nil => intro fuel _; cases fuel <;> rfl
  | cons c cs ih =>
    intro fuel hf
    obtain ⟨hshape, hdec⟩ := decodeOne_encodeChar c (cs.flatMap utf8EncodeChar)
    rw [List.flatMap_cons] at hf ⊢
    have hpos := utf8EncodeChar_length_pos c
    rw [List.length_append] at hf
    cases fuel with
    | zero => omega
    | succ fuel' =>
      rw [hshape, utf8DecodeLoop, hdec]
      dsimp only
      rw [ih fuel' (by omega)]
      rfl

theorem utf8DecodeChars_encode_list (cs : List Char) :
    utf8DecodeChars (cs.flatMap utf8EncodeChar) = some cs :=
  utf8DecodeLoop_encode_list cs _ le_rfl

/-- The UTF-8 codec round-trips: decoding an encoded string restores it. -/
theorem utf8Decode_encode (s : String) : utf8Decode (utf8Encode s) = some s := by
  rw [utf8Encode, utf8Decode, utf8DecodeChars_encode_list]
  rfl

/-! ## Extraction lemmas -/

theorem emitRecord_eq_some {pi ri : Nat} {run : XmlNode} {rec : HighlightRecord} :
    emitRecord pi ri run = some rec ↔
      is_highlighted run = true ∧ pyStrip (extract_text_from_run run) ≠ "" ∧
      rec = ⟨pyStrip (extract_text_from_run run), get_highlight_color run, pi, ri⟩ := by
  simp only [emitRecord]
  split_ifs with h1 h2
  · constructor
    · intro h
      exact ⟨h1, h2, (Option.some_inj.mp h).symm⟩
    · rintro ⟨-, -, rfl⟩
      rfl
  · constructor
    · intro h
      exact h.elim
    · rintro ⟨-, hne, rfl⟩
      exact absurd hne h2
  · constructor
    · intro h
      exact h.elim
    · rintro ⟨hh, -, rfl⟩
      exact absurd hh h1

theorem mem_paraRecords {pi : Nat} {p : XmlNode} {rec : HighlightRecord}
    (h : rec ∈ paraRecords pi p) :
    rec.paragraph_index = pi ∧
    ∃ run, (findallDesc p qR)[rec.run_index]? = some run ∧
      is_highlighted run = true ∧ pyStrip (extract_text_from_run run) ≠ "" ∧
      rec.text = pyStrip (extract_text_from_run run) ∧
      rec.highlight_color = get_highlight_color run := by
  unfold paraRecords at h
  rw [List.mem_filterMap] at h
  obtain ⟨⟨ri, run⟩, hmem, hemit⟩ := h
  rw [List.mem_enum_iff_getElem?] at hmem
  rw [emitRecord_eq_some] at hemit
  obtain ⟨hh, hs, hrec⟩ := hemit
  subst hrec
  exact ⟨rfl, run, hmem, hh, hs, rfl, rfl⟩

/-- Every record of `extractFromTree` points back, via its indices, at a run
that is highlighted, strips non-empty, and supplies the record's fields. -/
theorem mem_extractFromTree {root : XmlNode} {rec : HighlightRecord}
    (h : rec ∈ extractFromTree root) :
    ∃ run, runAt root rec.paragraph_index rec.run_index = some run ∧
      is_highlighted run = true ∧ pyStrip (extract_text_from_run run) ≠ "" ∧
      rec.text = pyStrip (extract_text_from_run run) ∧
      rec.highlight_color = get_highlight_color run := by
  unfold extractFromTree at h
  rw [List.mem_flatMap] at h
  obtain ⟨⟨pi, p⟩, hp, hin⟩ := h
  rw [List.mem_enum_iff_getElem?] at hp
  obtain ⟨hpi, run, hr, hrest⟩ := mem_paraRecords hin
  refine ⟨run, ?_, hrest⟩
  unfold runAt
  rw [hpi]
  rw [hp]
  exact hr

theorem pairwise_fst_lt_enumFrom {α : Type} (l : List α) (n : Nat) :
    (l.enumFrom n).Pairwise (fun a b => a.1 < b.1) := by
  induction l generalizing n with
  | nil => exact .nil
  | cons x xs ih =>
    rw [List.enumFrom_cons]
    refine .cons ?_ (ih (n + 1))
    rintro ⟨i, b⟩ hy
    have := List.mem_enumFrom hy
    simp only []
    omega

theorem pairwise_fst_lt_enum {α : Type} (l : List α) :
    l.enum.Pairwise (fun a b => a.1 < b.1) :=
  pairwise_fst_lt_enumFrom l 0

theorem paraRecords_pairwise (pi : Nat) (p : XmlNode) :
    (paraRecords pi p).Pairwise (fun a b => a.run_index < b.run_index) := by
  unfold paraRecords
  refine List.Pairwise.filterMap _ ?_ (pairwise_fst_lt_enum _)
  intro a a' hlt b hb b' hb'
  rw [Option.mem_def, emitRecord_eq_some] at hb hb'
  obtain ⟨_, _, rfl⟩ := hb
  obtain ⟨_, _, rfl⟩ := hb'
  exact hlt

theorem paraRecords_para_idx {pi : Nat} {p : XmlNode} {rec : HighlightRecord}
    (h : rec ∈ paraRecords pi p) : rec.paragraph_index = pi :=
  (mem_paraRecords h).1

/-! ## Claim theorems -/

/-- C1: for every document-XML text `X`, converting `X` to a package with
`xml_to_docx` and converting that package back with `docx_to_xml` yields `X`
byte-for-byte, and the synthesized package carries `X` verbatim (as its
UTF-8 bytes) as its document part at `word/document.xml`.  (The code never
validates the text, so this holds for every string, in particular every
well-formed document XML.) -/
theorem spec_C1 (xml : String) :
    docx_to_xml (xml_to_docx xml) = .ok xml ∧
    ∃ parts, xml_to_docx xml = .archive parts ∧
      zipRead parts wordDocumentPath = some (utf8Encode xml) := by
  have hlook : zipRead
      [ ("[Content_Types].xml", utf8Encode contentTypesXml)
      , ("_rels/.rels", utf8Encode mainRelsXml)
      , ("word/_rels/document.xml.rels", utf8Encode docRelsXml)
      , ("word/styles.xml", utf8Encode stylesXml)
      , (wordDocumentPath, utf8Encode xml) ] wordDocumentPath
      = some (utf8Encode xml) := by
    simp [zipRead, wordDocumentPath, List.lookup]
  exact ⟨by simp only [xml_to_docx, docx_to_xml, hlook, utf8Decode_encode],
    _, rfl, hlook⟩

/-- C2: on the two-paragraph scenario tree (paragraph 0: unhighlighted
`"Hello"`, highlighted green `"World"`; paragraph 1: a highlighted
whitespace-only run), extraction returns exactly one record,
`{text := "World", highlight_color := "green", paragraph_index := 0,
run_index := 1}`. -/
theorem spec_C2 (parse : String → Except (Nat × Nat) XmlNode) (xml : String)
    (h : parse xml = .ok c2doc) :
    extract_highlighted_text parse xml =
      .ok [⟨"World", some "green", 0, 1⟩] := by
  simp only [extract_highlighted_text, h]
  exact congrArg Except.ok (by decide)

/-- C2 witness: the theorem applied to the scenario's XML text and a parse
function returning its tree. -/
theorem spec_C2_witness :
    extract_highlighted_text (fun _ => .ok c2doc) c2xmlText =
      .ok [⟨"World", some "green", 0, 1⟩] :=
  spec_C2 (fun _ => .ok c2doc) c2xmlText rfl

/-- C3: whenever a record is emitted for a run whose highlight marker (the
first `w:highlight` descendant, the one `get_highlight_color` reads) has no
explicit `val` attribute, the record's highlight color is the fixed token
`"yellow"`. -/
theorem spec_C3 (root : XmlNode) (pi ri : Nat) (run m : XmlNode)
    (rec : HighlightRecord)
    (hrun : runAt root pi ri = some run)
    (hm : findDesc run qHighlight = some m)
    (hnoval : m.attrs.lookup qVal = none)
    (hmem : rec ∈ extractFromTree root)
    (hpi : rec.paragraph_index = pi) (hri : rec.run_index = ri) :
    rec.highlight_color = some "yellow" := by
  obtain ⟨run', hrun', -, -, -, hcolor⟩ := mem_extractFromTree hmem
  rw [hpi, hri, hrun] at hrun'
  injection hrun' with e
  subst e
  rw [hcolor]
  simp only [get_highlight_color, hm, XmlNode.getAttrD, hnoval]

/-- C3 witness: on `c3doc` (one highlighted run with a bare marker and text
`"Note"`) the emitted record's color is `"yellow"`. -/
theorem spec_C3_witness :
    (⟨"Note", some "yellow", 0, 0⟩ : HighlightRecord).highlight_color =
      some "yellow" :=
  spec_C3 c3doc 0 0 c3run (.elem qHighlight [] none [])
    ⟨"Note", some "yellow", 0, 0⟩ rfl rfl rfl (by decide) rfl rfl

/-- C4: a run whose concatenated text strips to the empty string never
contributes a record: no record in the output carries its indices (stated
for highlighted runs, per the claim; the emptiness check alone suffices). -/
theorem spec_C4 (root : XmlNode) (pi ri : Nat) (run : XmlNode)
    (hrun : runAt root pi ri = some run)
    (hhl : is_highlighted run = true)
    (hempty : pyStrip (extract_text_from_run run) = "")
    (rec : HighlightRecord) (hmem : rec ∈ extractFromTree root) :
    ¬ (rec.paragraph_index = pi ∧ rec.run_index = ri) := by
  rintro ⟨hpi, hri⟩
  obtain ⟨run', hrun', -, hs, -, -⟩ := mem_extractFromTree hmem
  rw [hpi, hri, hrun] at hrun'
  injection hrun' with e
  subst e
  exact hs hempty

/-- C4 witness: in `c4doc`, the highlighted run at paragraph 1, run 0 holds
only a no-break space (U+00A0) — non-ASCII whitespace that `str.strip()`
removes — and contributes no record (the only record is `"World"`'s). -/
theorem spec_C4_witness :
    ¬ ((⟨"World", some "green", 0, 0⟩ : HighlightRecord).paragraph_index = 1 ∧
       (⟨"World", some "green", 0, 0⟩ : HighlightRecord).run_index = 0) :=
  spec_C4 c4doc 1 0 c4run rfl (by decide) (by decide)
    ⟨"World", some "green", 0, 0⟩ (by decide)

/-- C5: the extractor's output is in paragraph-then-run document order:
pairwise, later records have a larger paragraph index, or the same paragraph
index and a run index at least as large. -/
theorem spec_C5 (root : XmlNode) : (extractFromTree root).Pairwise recLE := by
  unfold extractFromTree
  rw [List.flatMap_def, List.pairwise_flatten]
  constructor
  · intro l hl
    rw [List.mem_map] at hl
    obtain ⟨ip, -, rfl⟩ := hl
    refine (paraRecords_pairwise ip.1 ip.2).imp_of_mem ?_
    intro a b ha hb hlt
    exact Or.inr ⟨by rw [paraRecords_para_idx ha, paraRecords_para_idx hb],
      Nat.le_of_lt hlt⟩
  · rw [List.pairwise_map]
    refine (pairwise_fst_lt_enum _).imp_of_mem ?_
    intro a b ha hb hlt x hx y hy
    exact Or.inl (by
      rw [paraRecords_para_idx hx, paraRecords_para_idx hy]
      exact hlt)

/-- C6: `docx_to_xml` on a non-archive buffer fails with the corrupt-archive
error; on a valid archive lacking `word/document.xml` it fails with the
distinct part-not-found error; and extraction on malformed XML text fails
with the malformed-XML error carrying the parse position.  The three error
values are pairwise distinct. -/
theorem spec_C6 :
    (∀ raw : List Nat, docx_to_xml (.nonArchive raw) = .error .corruptArchive) ∧
    (∀ parts : List Part, zipRead parts wordDocumentPath = none →
      docx_to_xml (.archive parts) = .error .partNotFound) ∧
    (∀ (parse : String → Except (Nat × Nat) XmlNode) (xml : String)
        (line col : Nat), parse xml = .error (line, col) →
      extract_highlighted_text parse xml = .error (.malformedXml line col)) ∧
    Err.corruptArchive ≠ Err.partNotFound ∧
    (∀ line col : Nat, Err.corruptArchive ≠ .malformedXml line col) ∧
    (∀ line col : Nat, Err.partNotFound ≠ .malformedXml line col) := by
  refine ⟨fun raw => rfl, fun parts h => ?_, fun parse xml line col h => ?_,
    by decide, fun line col h => ?_, fun line col h => ?_⟩
  · simp only [docx_to_xml, h]
  · simp only [extract_highlighted_text, h]
  · exact Err.noConfusion h
  · exact Err.noConfusion h

/-- C6 witness: the three failures at concrete inputs — the empty buffer is
not an archive, the empty archive lacks the document part, and a parse
failure at line 3, column 7 is surfaced with that position. -/
theorem spec_C6_witness :
    docx_to_xml (.nonArchive []) = .error .corruptArchive ∧
    docx_to_xml (.archive []) = .error .partNotFound ∧
    extract_highlighted_text (fun _ => .error (3, 7)) "<w:document" =
      .error (.malformedXml 3 7) :=
  ⟨spec_C6.1 [], spec_C6.2.1 [] rfl,
    spec_C6.2.2.1 (fun _ => .error (3, 7)) "<w:document" 3 7 rfl⟩

/-- C7 counterexample: a valid archive whose document part holds the single
byte `0xFF` (not valid UTF-8).  `docx_to_xml` does not fail with a distinct
typed invalid-encoding error: the `UnicodeDecodeError` falls into the
catch-all `except Exception` handler and is surfaced as the generic 500
processing error, the same shape used for any unexpected exception. -/
theorem spec_C7_counterexample :
    docx_to_xml (.archive [(wordDocumentPath, [255])]) =
      .error (.processingError "UnicodeDecodeError") ∧
    (Err.processingError "UnicodeDecodeError").isGenericCatchAll = true ∧
    (Err.processingError "UnicodeDecodeError").status = 500 :=
  ⟨rfl, rfl, rfl⟩

/-- C7 as amended: when the document part is present but its bytes are not
valid UTF-8, `docx_to_xml` fails via the generic catch-all handler with the
500 processing error wrapping the `UnicodeDecodeError` — not a distinct
typed invalid-encoding error. -/
theorem spec_C7_amended (parts : List Part) (bs : List Nat)
    (hpart : zipRead parts wordDocumentPath = some bs)
    (hbad : utf8Decode bs = none) :
    docx_to_xml (.archive parts) =
      .error (.processingError "UnicodeDecodeError") ∧
    (Err.processingError "UnicodeDecodeError").isGenericCatchAll = true := by
  refine ⟨?_, rfl⟩
  simp only [docx_to_xml, hpart, hbad]

/-- C7 witness: the amended theorem applied to the one-part archive whose
document part is the byte `0xFF`. -/
theorem spec_C7_witness :
    docx_to_xml (.archive [(wordDocumentPath, [255])]) =
      .error (.processingError "UnicodeDecodeError") ∧
    (Err.processingError "UnicodeDecodeError").isGenericCatchAll = true :=
  spec_C7_amended [(wordDocumentPath, [255])] [255] rfl rfl

/-- C8: each of the three endpoints, given a zero-length upload (with a
filename passing its extension check), rejects it with the empty-input
error before reaching the conversion/extraction core. -/
theorem spec_C8 :
    (∀ (parse : String → Except (Nat × Nat) XmlNode) (filename : String),
      pyEndsWith (pyLower filename) ".docx" = true →
      submit_docx parse filename (.nonArchive []) = .error .emptyInput) ∧
    (∀ filename : String, pyEndsWith (pyLower filename) ".docx" = true →
      convert_xml filename (.nonArchive []) = .error .emptyInput) ∧
    (∀ filename : String, pyEndsWith (pyLower filename) ".xml" = true →
      convert_docx filename [] = .error .emptyInput) := by
  refine ⟨fun parse fn h => ?_, fun fn h => ?_, fun fn h => ?_⟩
  · simp [submit_docx, h, DocxBytes.isEmpty]
  · simp [convert_xml, h, DocxBytes.isEmpty]
  · simp [convert_docx, h]

/-- C8 witness: the three endpoints on concrete well-named empty uploads. -/
theorem spec_C8_witness :
    submit_docx (fun _ => .error (0, 0)) "a.docx" (.nonArchive []) =
      .error .emptyInput ∧
    convert_xml "a.docx" (.nonArchive []) = .error .emptyInput ∧
    convert_docx "a.xml" [] = .error .emptyInput :=
  ⟨spec_C8.1 (fun _ => .error (0, 0)) "a.docx" (by decide),
    spec_C8.2.1 "a.docx" (by decide), spec_C8.2.2 "a.xml" (by decide)⟩

/-- C9: for every XML input text, `xml_to_docx` returns an archive holding
exactly five parts — the content-types manifest, the package-level and
document-level relationship parts, the styles part, and the document part at
`word/document.xml` whose bytes are exactly the input text's UTF-8 bytes. -/
theorem spec_C9 (xml : String) :
    ∃ parts, xml_to_docx xml = .archive parts ∧
      parts.map Prod.fst =
        ["[Content_Types].xml", "_rels/.rels", "word/_rels/document.xml.rels",
         "word/styles.xml", wordDocumentPath] ∧
      zipRead parts wordDocumentPath = some (utf8Encode xml) := by
  refine ⟨_, rfl, rfl, ?_⟩
  simp [zipRead, wordDocumentPath, List.lookup]

/-- C10: every emitted record has a non-null highlight color — a record is
only appended when a marker is present, and color resolution then returns
the marker's `val` attribute or `"yellow"`, never `none`. -/
theorem spec_C10 (root : XmlNode) (rec : HighlightRecord)
    (h : rec ∈ extractFromTree root) :
    ∃ c, rec.highlight_color = some c := by
  obtain ⟨run, -, hh, -, -, hcolor⟩ := mem_extractFromTree h
  rw [is_highlighted, Option.isSome_iff_exists] at hh
  obtain ⟨m, hm⟩ := hh
  refine ⟨m.getAttrD qVal "yellow", ?_⟩
  rw [hcolor]
  simp only [get_highlight_color, hm]

/-- C10 witness: the record of the C2 scenario has a non-null color. -/
theorem spec_C10_witness :
    ∃ c, (⟨"World", some "green", 0, 1⟩ : HighlightRecord).highlight_color =
      some c :=
  spec_C10 c2doc ⟨"World", some "green", 0, 1⟩ (by decide)

end DocxApi

